import Mathlib

/-!
Verification of the interactive session orchestrator (aider TUI).

Shallow embedding of:
- `src/aider/tui.py` — the Textual TUI app (`TuiApp`): message types, the
  blocking chat runner, input submission, background worker wrappers,
  coder setup, and the file-toggle handler;
- `src/aider/coders/llm_command_coder.py` — `LLMCommandCoder.send`, which
  streams stdout of an external command one character at a time;
- `src/aider/render.py` — the singleton `Renderer`.

Python strings become `String`, the session/chat-log state becomes explicit
records, and the event-handler logic becomes pure transition functions.
External collaborators (the subprocess, the coder engine, the file system)
are parameters: the theorems quantify over their possible outputs.
-/

namespace Aider

/-- Messages posted by background workers to the presentation loop
(tui.py message classes `CoderReady`, `UpdateChatLog`, `ShowDiff`,
`ChatTaskDone`). -/
inductive Msg where
  | coderReady
  | updateChatLog (text : String)
  | showDiff (diff : String) (commitMessage : String)
  | chatTaskDone
deriving DecidableEq, Repr

/-- Concatenation of a list of text fragments, in order. -/
def concatAll : List String → String
  | [] => ""
  | s :: rest => s ++ concatAll rest

/-- tui.py:348-351 — after the stream loop, `_blocking_chat_runner` posts the
captured stdout text as one `UpdateChatLog`, only when it is non-empty. -/
def capturedMsgs (captured : String) : List Msg :=
  if captured = "" then [] else [Msg.updateChatLog captured]

/-- tui.py:353-361 — `if last_diff:` posts one `ShowDiff(last_diff,
last_message)`; Python truthiness treats both `None` and `""` as no diff. -/
def diffMsgs (lastDiff : Option String) (lastMessage : String) : List Msg :=
  match lastDiff with
  | none => []
  | some d => if d = "" then [] else [Msg.showDiff d lastMessage]

/-- tui.py:338-365 — `_blocking_chat_runner`: one `UpdateChatLog` per fragment
yielded by `coder.run_stream`, in yield order; then (unless the stream raised,
which jumps to the `finally` block) the captured-stdout message and the diff
message; the `finally` block always posts exactly one `ChatTaskDone`.
`yielded` is the fragment sequence produced by the streaming source before it
finished or raised; `streamFailed` is true when `run_stream` raised. -/
def blockingChatRunner (yielded : List String) (streamFailed : Bool)
    (captured : String) (lastDiff : Option String) (lastMessage : String) :
    List Msg :=
  yielded.map Msg.updateChatLog
    ++ (if streamFailed then []
        else capturedMsgs captured ++ diffMsgs lastDiff lastMessage)
    ++ [Msg.chatTaskDone]

/-- tui.py:203-208 — `on_update_chat_log` moves the cursor to the end of the
chat log and inserts the message text there; other messages leave the log
text unchanged. -/
def applyMsg (log : String) (m : Msg) : String :=
  match m with
  | Msg.updateChatLog t => log ++ t
  | _ => log

/-- The presentation loop processes a message list in delivery order. -/
def applyMsgs (log : String) (msgs : List Msg) : String :=
  msgs.foldl applyMsg log

theorem applyMsgs_append (log : String) (l₁ l₂ : List Msg) :
    applyMsgs log (l₁ ++ l₂) = applyMsgs (applyMsgs log l₁) l₂ := by
  simp [applyMsgs, List.foldl_append]

/-- The text a single message contributes to the chat log. -/
def msgText (m : Msg) : String :=
  match m with
  | Msg.updateChatLog t => t
  | _ => ""

theorem applyMsg_eq (log : String) (m : Msg) :
    applyMsg log m = log ++ msgText m := by
  cases m <;> simp [applyMsg, msgText]

theorem applyMsgs_out (msgs : List Msg) : ∀ log : String,
    applyMsgs log msgs = log ++ applyMsgs "" msgs := by
  induction msgs with
  | nil => intro log; simp [applyMsgs]
  | cons m ms ih =>
      intro log
      show applyMsgs (applyMsg log m) ms = log ++ applyMsgs (applyMsg "" m) ms
      rw [ih (applyMsg log m), ih (applyMsg "" m), applyMsg_eq, applyMsg_eq]
      simp [String.append_assoc]

theorem applyMsgs_map_update (chunks : List String) : ∀ log : String,
    applyMsgs log (chunks.map Msg.updateChatLog) = log ++ concatAll chunks := by
  induction chunks with
  | nil => intro log; simp [applyMsgs, concatAll]
  | cons c cs ih =>
      intro log
      show applyMsgs (applyMsg log (Msg.updateChatLog c)) (cs.map Msg.updateChatLog)
        = log ++ concatAll (c :: cs)
      rw [ih]
      simp [applyMsg, concatAll, String.append_assoc]

/-- C1: for a turn whose streaming source yields fragments f₁…fₙ in that
order, `_blocking_chat_runner` posts one `UpdateChatLog` per fragment, as the
first n messages in production order with no reordering or omission; the
rendered log therefore contains the concatenation of the fragments as a
contiguous order-preserved append; and exactly one `ChatTaskDone` is posted,
after all fragment messages (it is the last message of the turn). -/
theorem chat_stream_order_single_taskdone
    (chunks : List String) (captured : String) (lastDiff : Option String)
    (lastMessage : String) (log₀ : String) :
    (blockingChatRunner chunks false captured lastDiff lastMessage).take
        chunks.length = chunks.map Msg.updateChatLog
    ∧ (blockingChatRunner chunks false captured lastDiff lastMessage).count
        Msg.chatTaskDone = 1
    ∧ (blockingChatRunner chunks false captured lastDiff lastMessage).getLast?
        = some Msg.chatTaskDone
    ∧ ∃ rest : String,
        applyMsgs log₀ (blockingChatRunner chunks false captured lastDiff lastMessage)
          = log₀ ++ (concatAll chunks ++ rest) := by
  refine ⟨?_, ?_, ?_, ?_⟩
  · have h : (chunks.map Msg.updateChatLog).length = chunks.length :=
      List.length_map _ _
    rw [blockingChatRunner, List.append_assoc, ← h, List.take_left]
  · rw [blockingChatRunner]
    simp only [List.count_append]
    have h₁ : (chunks.map Msg.updateChatLog).count Msg.chatTaskDone = 0 := by
      rw [List.count_eq_zero]
      intro hmem
      rcases List.mem_map.mp hmem with ⟨t, _, ht⟩
      exact Msg.noConfusion ht
    have h₂ : ((if false = true then []
        else capturedMsgs captured ++ diffMsgs lastDiff lastMessage) :
        List Msg).count Msg.chatTaskDone = 0 := by
      simp only [if_neg (by decide : ¬false = true), List.count_append]
      have hc : (capturedMsgs captured).count Msg.chatTaskDone = 0 := by
        unfold capturedMsgs
        by_cases h : captured = "" <;> simp [h, List.count_eq_zero]
      have hd : (diffMsgs lastDiff lastMessage).count Msg.chatTaskDone = 0 := by
        unfold diffMsgs
        cases lastDiff with
        | none => simp
        | some d => by_cases h : d = "" <;> simp [h, List.count_eq_zero]
      rw [hc, hd]
    rw [h₁, h₂]
    decide
  · rw [blockingChatRunner]
    exact List.getLast?_concat _
  · refine ⟨applyMsgs ""
      ((if false = true then []
        else capturedMsgs captured ++ diffMsgs lastDiff lastMessage) ++
        [Msg.chatTaskDone]), ?_⟩
    rw [blockingChatRunner, List.append_assoc, applyMsgs_append,
      applyMsgs_map_update,
      applyMsgs_out _ (log₀ ++ concatAll chunks)]
    simp [String.append_assoc]

/-- llm_command_coder.py:59-70 — the streaming loop of `LLMCommandCoder.send`:
`completion.read(1)` returns the next character of the process stdout (or ""
at end of stream, which stops `iter`); each character is appended to
`partial_response_content` and yielded as a one-character chunk. Returns
(yielded chunks, final value of the field), with `acc` the field's current
value. -/
def sendLoop : List Char → String → List String × String
  | [], acc => ([], acc)
  | c :: cs, acc =>
      let r := sendLoop cs (acc ++ String.singleton c)
      (String.singleton c :: r.1, r.2)

/-- llm_command_coder.py:29-70 — `LLMCommandCoder.send`: when `functions` is
passed it reports an error and returns before touching
`partial_response_content` (which keeps its previous value `prevContent` and
yields nothing); otherwise it resets the field to "" and streams the process
stdout (`stdoutData`) one character at a time. Returns (yielded chunks, final
value of `partial_response_content`). -/
def send (functionsGiven : Bool) (prevContent : String)
    (stdoutData : List Char) : List String × String :=
  if functionsGiven then ([], prevContent) else sendLoop stdoutData ""

/-- llm_command_coder.py:72-77 — after the stream loop, `process.wait()`; on a
non-zero return code `tool_error` is called with the exit-code text, and then,
only when the captured error stream is non-empty, a second time with that
text. Returns the list of failure reports in emission order. -/
def sendToolErrors (returncode : Int) (stderrText : String) : List String :=
  if returncode = 0 then []
  else ("LLM command failed with exit code " ++ toString returncode)
    :: (if stderrText = "" then [] else [stderrText])

/-- Observable events of one full turn, in emission order: chat-log appends
and diff messages posted by the runner, failure reports surfaced through
`io.tool_error`, and the end-of-turn signal. -/
inductive Ev where
  | logAppend (text : String)
  | errorReport (text : String)
  | diffReady (diff : String) (description : String)
  | taskDone
deriving DecidableEq, Repr

/-- One turn end to end through `LLMCommandCoder.send` and
`_blocking_chat_runner`: the per-character chunks are posted as log appends
while streaming; after stdout EOF the process is waited on and its failure
reports are surfaced; then the runner posts the captured stdout, the diff
message when a non-empty diff is recorded, and exactly one task-done. -/
def turnTrace (stdoutData : List Char) (returncode : Int) (stderrText : String)
    (captured : String) (lastDiff : Option String) (lastMessage : String) :
    List Ev :=
  ((send false "" stdoutData).1).map Ev.logAppend
    ++ (sendToolErrors returncode stderrText).map Ev.errorReport
    ++ (if captured = "" then [] else [Ev.logAppend captured])
    ++ (match lastDiff with
        | none => []
        | some d => if d = "" then [] else [Ev.diffReady d lastMessage])
    ++ [Ev.taskDone]

/-- Result of one background worker function: the messages it posted and the
exception (if any) that escaped it. -/
structure BgResult where
  msgs : List Msg
  escaped : Option String
deriving DecidableEq, Repr

/-- tui.py:240-250, 256-269, 275-285, 298-308, 371-387 — the shared shape of
`_blocking_commit`, `_blocking_run_test`, `_blocking_lint`, `undo_wrapper` and
`_blocking_handle_file_selected`: redirect stdout, run the wrapped call, and
in a `finally` block restore stdout and post the captured output when
non-empty. There is no `except` clause, so when the wrapped call raises, the
exception propagates out of the function after the `finally` block runs.
`outcome` is the wrapped call's result; `captured` the stdout text captured
up to its return or raise. -/
def blockingWrapper (outcome : Except String Unit) (captured : String) :
    BgResult :=
  { msgs := if captured = "" then [] else [Msg.updateChatLog captured]
    escaped :=
      match outcome with
      | Except.ok _ => none
      | Except.error e => some e }

/-- tui.py:146-188 — `run_coder_setup`: on success posts `CoderReady`; on any
exception (`except BaseException`) posts one `UpdateChatLog` carrying the
error text; in both cases nothing escapes. Returns (posted messages, escaped
exception). -/
def runCoderSetup (outcome : Except String Unit) : List Msg × Option String :=
  match outcome with
  | Except.ok _ => ([Msg.coderReady], none)
  | Except.error e =>
      ([Msg.updateChatLog ("Error during Coder setup: " ++ e)], none)

/-- C9 counterexample: calling `send` with a `functions` argument returns
before resetting `partial_response_content`, so after the (empty) generator
is exhausted the field (here still "old" from an earlier call) differs from
the concatenation of the yielded chunks (the empty string). -/
theorem send_field_counterexample :
    (send true "old" []).2 ≠ concatAll (send true "old" []).1 := by
  decide

theorem sendLoop_spec (stdoutData : List Char) : ∀ acc : String,
    (sendLoop stdoutData acc).2 = acc ++ concatAll (sendLoop stdoutData acc).1
    ∧ ∀ ch ∈ (sendLoop stdoutData acc).1, ch.length = 1 := by
  induction stdoutData with
  | nil =>
      intro acc
      refine ⟨?_, ?_⟩
      · show acc = acc ++ concatAll []
        simp [concatAll]
      · intro ch hch
        exact absurd hch (List.not_mem_nil ch)
  | cons c cs ih =>
      intro acc
      refine ⟨?_, ?_⟩
      · show (sendLoop cs (acc ++ String.singleton c)).2
          = acc ++ concatAll (String.singleton c :: (sendLoop cs (acc ++ String.singleton c)).1)
        rw [(ih (acc ++ String.singleton c)).1]
        simp [concatAll, String.append_assoc]
      · intro ch hch
        rcases List.mem_cons.mp hch with h | h
        · rw [h]; rfl
        · exact (ih (acc ++ String.singleton c)).2 ch h

/-- C9 (amended): when no `functions` argument is passed, after the generator
returned by `LLMCommandCoder.send` is exhausted the field
`partial_response_content` equals the concatenation, in yield order, of all
chunks the generator yielded, and every yielded chunk is exactly one
character long (hence non-empty). -/
theorem send_accumulates_chunks (prevContent : String) (stdoutData : List Char) :
    (send false prevContent stdoutData).2
        = concatAll (send false prevContent stdoutData).1
    ∧ ∀ ch ∈ (send false prevContent stdoutData).1, ch.length = 1 := by
  unfold send
  simp only [if_neg (by decide : ¬false = true)]
  refine ⟨?_, (sendLoop_spec stdoutData "").2⟩
  rw [(sendLoop_spec stdoutData "").1]
  simp

/-- C9 witness: on stdout "ab", the generator yields "a" then "b" and the
field ends as their concatenation. -/
theorem send_accumulates_chunks_witness :
    (send false "stale" [Char.ofNat 97, Char.ofNat 98]).2
      = concatAll (send false "stale" [Char.ofNat 97, Char.ofNat 98]).1 :=
  (send_accumulates_chunks "stale" [Char.ofNat 97, Char.ofNat 98]).1

/-- C4 counterexample: a background worker whose wrapped call raises (here
with no captured stdout) lets the exception escape the worker function and
posts no message at all — the failure is not converted to a message at the
dispatcher boundary. -/
theorem background_failure_counterexample :
    (blockingWrapper (Except.error "boom") "").escaped = some "boom"
    ∧ (blockingWrapper (Except.error "boom") "").msgs = []
    ∧ ¬(blockingWrapper (Except.error "boom") "").escaped = none := by
  exact ⟨rfl, rfl, by decide⟩

/-- C4 (amended): when the wrapped call of a background worker raises, the
`finally` block posts only the captured stdout (when non-empty) and the
exception escapes the worker function uncaught; only coder setup differs —
`run_coder_setup` catches the exception, converts it to exactly one chat-log
message, and lets nothing escape. -/
theorem background_failure_escapes (e captured : String) :
    (blockingWrapper (Except.error e) captured).escaped = some e
    ∧ (∀ m ∈ (blockingWrapper (Except.error e) captured).msgs,
        m = Msg.updateChatLog captured)
    ∧ (runCoderSetup (Except.error e)).2 = none
    ∧ (runCoderSetup (Except.error e)).1
        = [Msg.updateChatLog ("Error during Coder setup: " ++ e)] := by
  refine ⟨rfl, ?_, rfl, rfl⟩
  intro m hm
  unfold blockingWrapper at hm
  by_cases h : captured = "" <;> simp [h] at hm
  · exact hm

/-- C4 witness: concrete instance of the amended statement. -/
theorem background_failure_escapes_witness :
    (blockingWrapper (Except.error "boom") "out").escaped = some "boom"
    ∧ (runCoderSetup (Except.error "boom")).1
        = [Msg.updateChatLog ("Error during Coder setup: " ++ "boom")] :=
  ⟨(background_failure_escapes "boom" "out").1,
   (background_failure_escapes "boom" "out").2.2.2⟩

/-- C3 counterexample: for a process exiting with code 1 and captured error
stream "permission denied", the code surfaces two failure reports — one with
the termination code and a separate one with the diagnostic text — not
exactly one report carrying both. -/
theorem stream_failure_report_counterexample :
    sendToolErrors 1 "permission denied"
      = ["LLM command failed with exit code 1", "permission denied"]
    ∧ (sendToolErrors 1 "permission denied").length ≠ 1 := by
  exact ⟨by decide, by decide⟩

/-- C3 (amended): if the external process backing a turn terminates with a
non-zero exit code, the stream stops producing fragments at stdout EOF and
the failure is surfaced as one report carrying the termination code followed
by one further report carrying the captured error-stream text exactly when
that text is non-empty (two reports, not a single one carrying both); exactly
one task-done event follows, after all reports, and no diff event is emitted
for such a failed turn with no file change. -/
theorem stream_failure_reports_and_taskdone
    (stdoutData : List Char) (returncode : Int)
    (stderrText captured lastMessage : String)
    (hrc : returncode ≠ 0) :
    sendToolErrors returncode stderrText
        = ("LLM command failed with exit code " ++ toString returncode)
          :: (if stderrText = "" then [] else [stderrText])
    ∧ (turnTrace stdoutData returncode stderrText captured none
        lastMessage).count Ev.taskDone = 1
    ∧ (turnTrace stdoutData returncode stderrText captured none
        lastMessage).getLast? = some Ev.taskDone
    ∧ ∀ d desc, Ev.diffReady d desc
        ∉ turnTrace stdoutData returncode stderrText captured none lastMessage := by
  refine ⟨?_, ?_, ?_, ?_⟩
  · unfold sendToolErrors
    rw [if_neg hrc]
  · unfold turnTrace
    simp only [List.count_append]
    have h₁ : ∀ l : List String, (l.map Ev.logAppend).count Ev.taskDone = 0 := by
      intro l
      rw [List.count_eq_zero]
      intro hmem
      rcases List.mem_map.mp hmem with ⟨t, _, ht⟩
      exact Ev.noConfusion ht
    have h₂ : ∀ l : List String, (l.map Ev.errorReport).count Ev.taskDone = 0 := by
      intro l
      rw [List.count_eq_zero]
      intro hmem
      rcases List.mem_map.mp hmem with ⟨t, _, ht⟩
      exact Ev.noConfusion ht
    have h₃ : ((if captured = "" then [] else [Ev.logAppend captured]) :
        List Ev).count Ev.taskDone = 0 := by
      by_cases h : captured = "" <;> simp [h, List.count_eq_zero]
    rw [h₁, h₂, h₃]
    decide
  · unfold turnTrace
    exact List.getLast?_concat _
  · intro d desc
    unfold turnTrace
    simp only [List.mem_append, List.mem_map, List.mem_singleton]
    intro hmem
    rcases hmem with ((((⟨t, _, ht⟩ | ⟨t, _, ht⟩) | hc) | hd) | hlast)
    · exact Ev.noConfusion ht
    · exact Ev.noConfusion ht
    · by_cases h : captured = "" <;> simp [h] at hc
    · simp at hd
    · exact Ev.noConfusion hlast

/-- C3 witness: concrete failed turn — stdout "ok", exit code 1, diagnostic
"permission denied", no captured stdout, no diff. -/
theorem stream_failure_reports_witness :
    sendToolErrors 1 "permission denied"
        = ("LLM command failed with exit code " ++ toString (1 : Int))
          :: (if "permission denied" = "" then [] else ["permission denied"])
    ∧ (turnTrace [Char.ofNat 111, Char.ofNat 107] 1 "permission denied" "" none
        "").count Ev.taskDone = 1
    ∧ (turnTrace [Char.ofNat 111, Char.ofNat 107] 1 "permission denied" "" none
        "").getLast? = some Ev.taskDone :=
  ⟨(stream_failure_reports_and_taskdone [Char.ofNat 111, Char.ofNat 107] 1
      "permission denied" "" "" (by decide)).1,
   (stream_failure_reports_and_taskdone [Char.ofNat 111, Char.ofNat 107] 1
      "permission denied" "" "" (by decide)).2.1,
   (stream_failure_reports_and_taskdone [Char.ofNat 111, Char.ofNat 107] 1
      "permission denied" "" "" (by decide)).2.2.1⟩

/-- Observable dispatch state of the TUI: whether coder setup has finished
(and whether it failed), whether the prompt input surface accepts
submissions, and how many background workers of each kind are currently
executing (`turns` counts chat-turn workers, `exclusives` counts the
commit/test/lint workers requested through the command palette). -/
structure TuiState where
  setupDone : Bool
  setupFailed : Bool
  inputEnabled : Bool
  turns : Nat
  exclusives : Nat
deriving DecidableEq, Repr

/-- tui.py:393-410 — `compose` creates the prompt input with
`disabled=True`; nothing is running before setup finishes. -/
def initState : TuiState :=
  { setupDone := false, setupFailed := false, inputEnabled := false,
    turns := 0, exclusives := 0 }

/-- tui.py:322-336 — `on_input_submitted` acting on the dispatch state and
the chat log: an empty prompt returns immediately (no state change);
otherwise it clears and disables the input, appends one echo line
"> prompt\n\n" at the end of the log, and starts exactly one chat-turn
worker (`run_worker(self.run_chat_task(prompt))`, not exclusive). -/
def onInputSubmitted (s : TuiState) (log : String) (p : String) :
    TuiState × String :=
  if p = "" then (s, log)
  else ({ s with inputEnabled := false, turns := s.turns + 1 },
        log ++ ("> " ++ p ++ "\n\n"))

/-- Events driving the dispatch state. `submit` fires only through the Input
widget, which does not emit `Submitted` while disabled; `turnDone` is the
`ChatTaskDone` message, posted by the `finally` block of a running turn;
`paletteCommand` is a commit/test/lint chosen in the command palette, whose
provider (tui.py:32-60) only requires `self.app.coder` to be set, i.e. a
successful setup; the palette workers use `exclusive=True`, but Textual
cancellation of a thread worker is cooperative and these workers never check
for it, so an in-flight worker runs to completion and is only removed by its
own done event. -/
inductive TuiEvent where
  | setupOk
  | setupFail
  | submit (prompt : String)
  | turnDone
  | paletteCommand
  | paletteCommandDone
deriving DecidableEq, Repr

/-- One step of the dispatch state machine (tui.py event handlers:
`run_coder_setup`, `on_coder_ready`, `on_input_submitted`,
`on_chat_task_done`, `do_commit`/`do_run_test`/`do_lint`). -/
def step (s : TuiState) (e : TuiEvent) : TuiState :=
  match e with
  | TuiEvent.setupOk =>
      if s.setupDone = true then s
      else { s with setupDone := true, inputEnabled := true }
  | TuiEvent.setupFail =>
      if s.setupDone = true then s
      else { s with setupDone := true, setupFailed := true }
  | TuiEvent.submit p =>
      if s.inputEnabled = true then (onInputSubmitted s "" p).1 else s
  | TuiEvent.turnDone =>
      if 0 < s.turns then { s with turns := s.turns - 1, inputEnabled := true }
      else s
  | TuiEvent.paletteCommand =>
      if s.setupDone = true ∧ s.setupFailed = false then
        { s with exclusives := s.exclusives + 1 }
      else s
  | TuiEvent.paletteCommandDone =>
      if 0 < s.exclusives then { s with exclusives := s.exclusives - 1 }
      else s

/-- Running the TUI from startup through a sequence of events. -/
def runTui (es : List TuiEvent) : TuiState := es.foldl step initState

/-- Inductive invariant of the dispatch state machine. -/
def Inv (s : TuiState) : Prop :=
  s.turns ≤ 1
  ∧ (s.inputEnabled = true →
      s.turns = 0 ∧ s.setupDone = true ∧ s.setupFailed = false)
  ∧ (s.setupDone = false →
      s.turns = 0 ∧ s.inputEnabled = false ∧ s.setupFailed = false
        ∧ s.exclusives = 0)
  ∧ (0 < s.turns → s.setupDone = true ∧ s.setupFailed = false)
  ∧ (s.setupFailed = true → s.inputEnabled = false ∧ s.turns = 0)

theorem inv_init : Inv initState := by
  refine ⟨?_, ?_, ?_, ?_, ?_⟩ <;> simp [initState, Inv]

theorem inv_step (s : TuiState) (e : TuiEvent) (h : Inv s) : Inv (step s e) := by
  obtain ⟨h₁, h₂, h₃, h₄, h₅⟩ := h
  cases e with
  | setupOk =>
      by_cases hd : s.setupDone = true
      · simpa [step, hd] using ⟨h₁, h₂, h₃, h₄, h₅⟩
      · have hfree := h₃ (by simpa using hd)
        refine ⟨?_, ?_, ?_, ?_, ?_⟩ <;>
          simp [step, hd, hfree.1, hfree.2.2.1]
  | setupFail =>
      by_cases hd : s.setupDone = true
      · simpa [step, hd] using ⟨h₁, h₂, h₃, h₄, h₅⟩
      · have hfree := h₃ (by simpa using hd)
        refine ⟨?_, ?_, ?_, ?_, ?_⟩ <;>
          simp [step, hd, hfree.1, hfree.2.1]
  | submit p =>
      by_cases he : s.inputEnabled = true
      · have hen := h₂ he
        by_cases hp : p = ""
        · simpa [step, he, onInputSubmitted, hp] using ⟨h₁, h₂, h₃, h₄, h₅⟩
        · refine ⟨?_, ?_, ?_, ?_, ?_⟩ <;>
            simp [step, he, onInputSubmitted, hp, hen.1, hen.2.1, hen.2.2]
      · simpa [step, he] using ⟨h₁, h₂, h₃, h₄, h₅⟩
  | turnDone =>
      by_cases ht : 0 < s.turns
      · have hsd := h₄ ht
        have hturns : s.turns = 1 := Nat.le_antisymm h₁ ht
        refine ⟨?_, ?_, ?_, ?_, ?_⟩ <;>
          simp [step, ht, hturns, hsd.1, hsd.2]
      · simpa [step, ht] using ⟨h₁, h₂, h₃, h₄, h₅⟩
  | paletteCommand =>
      by_cases hg : s.setupDone = true ∧ s.setupFailed = false
      · refine ⟨?_, ?_, ?_, ?_, ?_⟩ <;>
          simp only [step, if_pos hg] <;>
          first
            | exact h₁
            | (intro hh
               first
                 | exact h₂ hh
                 | (exfalso; rw [hg.1] at hh; exact Bool.noConfusion hh)
                 | exact h₄ hh
                 | (exfalso; rw [hg.2] at hh; exact Bool.noConfusion hh))
      · simpa [step, hg] using ⟨h₁, h₂, h₃, h₄, h₅⟩
  | paletteCommandDone =>
      by_cases hx : 0 < s.exclusives
      · refine ⟨?_, ?_, ?_, ?_, ?_⟩ <;> simp only [step, if_pos hx] <;>
          first
            | exact h₁
            | (intro hh
               first
                 | exact h₂ hh
                 | exact h₄ hh
                 | exact h₅ hh
                 | (refine ⟨(h₃ hh).1, (h₃ hh).2.1, (h₃ hh).2.2.1, ?_⟩
                    simp [(h₃ hh).2.2.2]))
      · simpa [step, hx] using ⟨h₁, h₂, h₃, h₄, h₅⟩

theorem inv_foldl (es : List TuiEvent) : ∀ s : TuiState, Inv s →
    Inv (es.foldl step s) := by
  induction es with
  | nil => intro s h; exact h
  | cons e es ih => intro s h; exact ih (step s e) (inv_step s e h)

theorem inv_runTui (es : List TuiEvent) : Inv (runTui es) :=
  inv_foldl es initState inv_init

/-- C2 counterexample: the command palette stays available while a turn is
Running (its provider only checks that the coder exists), and neither
`do_commit` nor `on_input_submitted` consults any work slot — after setup, a
palette commit followed by a prompt submission leaves a commit worker and a
turn worker Running at the same time, so two exclusive execution contexts
run concurrently. -/
theorem workslot_exclusivity_counterexample :
    (runTui [TuiEvent.setupOk, TuiEvent.paletteCommand,
        TuiEvent.submit "hi"]).turns = 1
    ∧ (runTui [TuiEvent.setupOk, TuiEvent.paletteCommand,
        TuiEvent.submit "hi"]).exclusives = 1
    ∧ ¬((runTui [TuiEvent.setupOk, TuiEvent.paletteCommand,
          TuiEvent.submit "hi"]).turns
        + (runTui [TuiEvent.setupOk, TuiEvent.paletteCommand,
          TuiEvent.submit "hi"]).exclusives ≤ 1) := by
  exact ⟨by decide, by decide, by decide⟩

/-- C2 (amended): at most one turn is ever Running, and a prompt submission
issued while a turn is Running is rejected — the input surface is disabled
for the whole turn, so the submit event is a no-op and never starts a second
concurrently-running turn; commit/test/lint requests from the command
palette, however, are not checked against the running turn and may run
concurrently with it. -/
theorem turn_exclusivity (es : List TuiEvent) (p : String) :
    (runTui es).turns ≤ 1
    ∧ (0 < (runTui es).turns →
        step (runTui es) (TuiEvent.submit p) = runTui es) := by
  have h := inv_runTui es
  refine ⟨h.1, ?_⟩
  intro ht
  have hinp : ¬(runTui es).inputEnabled = true := by
    intro he
    have h0 := (h.2.1 he).1
    omega
  simp [step, hinp]

/-- C2 witness: with one turn Running, a second submission changes nothing. -/
theorem turn_exclusivity_witness :
    (runTui [TuiEvent.setupOk, TuiEvent.submit "a"]).turns ≤ 1
    ∧ step (runTui [TuiEvent.setupOk, TuiEvent.submit "a"])
        (TuiEvent.submit "b") = runTui [TuiEvent.setupOk, TuiEvent.submit "a"] :=
  ⟨(turn_exclusivity [TuiEvent.setupOk, TuiEvent.submit "a"] "b").1,
   (turn_exclusivity [TuiEvent.setupOk, TuiEvent.submit "a"] "b").2 (by decide)⟩

theorem setup_flags_persist (es : List TuiEvent) : ∀ s : TuiState,
    s.setupDone = true → s.setupFailed = true →
    (es.foldl step s).setupDone = true
      ∧ (es.foldl step s).setupFailed = true := by
  induction es with
  | nil => intro s h₁ h₂; exact ⟨h₁, h₂⟩
  | cons e es ih =>
      intro s h₁ h₂
      apply ih
      · cases e with
        | setupOk => simp [step, h₁]
        | setupFail => simp [step, h₁]
        | submit p =>
            by_cases he : s.inputEnabled = true
            · by_cases hp : p = "" <;>
                simp [step, he, onInputSubmitted, hp, h₁]
            · simp [step, he, h₁]
        | turnDone => by_cases ht : 0 < s.turns <;> simp [step, ht, h₁]
        | paletteCommand => simp [step, h₁, h₂]
        | paletteCommandDone =>
            by_cases hx : 0 < s.exclusives <;> simp [step, hx, h₁]
      · cases e with
        | setupOk => simp [step, h₁, h₂]
        | setupFail => simp [step, h₁, h₂]
        | submit p =>
            by_cases he : s.inputEnabled = true
            · by_cases hp : p = "" <;>
                simp [step, he, onInputSubmitted, hp, h₂]
            · simp [step, he, h₂]
        | turnDone => by_cases ht : 0 < s.turns <;> simp [step, ht, h₂]
        | paletteCommand => simp [step, h₁, h₂]
        | paletteCommandDone =>
            by_cases hx : 0 < s.exclusives <;> simp [step, hx, h₂]

/-- C6: when coder setup fails before any turn runs, the failure is reported
exactly once, as one chat-log message carrying the error text; no
`CoderReady` is posted; and whatever events follow, the prompt input surface
stays disabled and no turn ever runs. -/
theorem setup_failure_disables_input (errText : String) (es : List TuiEvent) :
    (runCoderSetup (Except.error errText)).1
        = [Msg.updateChatLog ("Error during Coder setup: " ++ errText)]
    ∧ Msg.coderReady ∉ (runCoderSetup (Except.error errText)).1
    ∧ (runTui (TuiEvent.setupFail :: es)).inputEnabled = false
    ∧ (runTui (TuiEvent.setupFail :: es)).turns = 0 := by
  have hinv : Inv (runTui (TuiEvent.setupFail :: es)) :=
    inv_foldl es (step initState TuiEvent.setupFail)
      (inv_step initState TuiEvent.setupFail inv_init)
  have hfail : (runTui (TuiEvent.setupFail :: es)).setupFailed = true :=
    (setup_flags_persist es (step initState TuiEvent.setupFail) rfl rfl).2
  have hres := hinv.2.2.2.2 hfail
  exact ⟨rfl, by simp [runCoderSetup], hres.1, hres.2⟩

/-- C6 witness: a concrete failed setup followed by an attempted
submission. -/
theorem setup_failure_disables_input_witness :
    (runCoderSetup (Except.error "boom")).1
        = [Msg.updateChatLog ("Error during Coder setup: " ++ "boom")]
    ∧ (runTui [TuiEvent.setupFail, TuiEvent.submit "x"]).inputEnabled = false
    ∧ (runTui [TuiEvent.setupFail, TuiEvent.submit "x"]).turns = 0 :=
  ⟨(setup_failure_disables_input "boom" [TuiEvent.submit "x"]).1,
   (setup_failure_disables_input "boom" [TuiEvent.submit "x"]).2.2.1,
   (setup_failure_disables_input "boom" [TuiEvent.submit "x"]).2.2.2⟩

/-- C7: dispatch of a prompt submission is a no-op on empty input (no state
change, no echo, no turn started); on non-empty input it disables further
input, appends exactly one echo line containing the prompt to the chat log,
and starts exactly one turn (and no other worker). -/
theorem input_submission_dispatch (s : TuiState) (log p : String) :
    (p = "" → onInputSubmitted s log p = (s, log))
    ∧ (p ≠ "" →
        (onInputSubmitted s log p).1.inputEnabled = false
        ∧ (onInputSubmitted s log p).1.turns = s.turns + 1
        ∧ (onInputSubmitted s log p).1.exclusives = s.exclusives
        ∧ (onInputSubmitted s log p).2 = log ++ ("> " ++ p ++ "\n\n")) := by
  constructor
  · intro hp; simp [onInputSubmitted, hp]
  · intro hp; simp [onInputSubmitted, hp]

/-- C7 witness: empty and non-empty submissions at concrete inputs. -/
theorem input_submission_dispatch_witness :
    onInputSubmitted initState "x" "" = (initState, "x")
    ∧ (onInputSubmitted initState "" "hi").1.turns = initState.turns + 1
    ∧ (onInputSubmitted initState "" "hi").2 = "" ++ ("> " ++ "hi" ++ "\n\n") :=
  ⟨(input_submission_dispatch initState "x" "").1 rfl,
   ((input_submission_dispatch initState "" "hi").2 (by decide)).2.1,
   ((input_submission_dispatch initState "" "hi").2 (by decide)).2.2.2⟩

theorem blockingChatRunner_false (yielded : List String) (captured : String)
    (lastDiff : Option String) (lastMessage : String) :
    blockingChatRunner yielded false captured lastDiff lastMessage
      = yielded.map Msg.updateChatLog
        ++ (capturedMsgs captured ++ diffMsgs lastDiff lastMessage)
        ++ [Msg.chatTaskDone] := by
  simp [blockingChatRunner]

/-- C5: on completion of a turn's streaming phase, when a non-empty last diff
is recorded exactly one `ShowDiff` carrying that diff and its description is
posted, and any `ShowDiff` posted carries exactly the recorded non-empty diff
and description (so none is posted when no diff, or an empty diff, is
recorded); the unique `ChatTaskDone` is the last message, so the `ShowDiff`,
when present, precedes it. -/
theorem diff_ready_exactly_when_diff
    (chunks : List String) (captured lastMessage : String)
    (lastDiff : Option String) :
    (∀ d, lastDiff = some d → d ≠ "" →
        (blockingChatRunner chunks false captured lastDiff lastMessage).count
          (Msg.showDiff d lastMessage) = 1)
    ∧ (∀ d desc,
        Msg.showDiff d desc
            ∈ blockingChatRunner chunks false captured lastDiff lastMessage →
        lastDiff = some d ∧ desc = lastMessage ∧ d ≠ "")
    ∧ (blockingChatRunner chunks false captured lastDiff lastMessage).count
        Msg.chatTaskDone = 1
    ∧ (blockingChatRunner chunks false captured lastDiff lastMessage).getLast?
        = some Msg.chatTaskDone := by
  have hmap : ∀ (l : List String) (m : Msg), (∀ t, m ≠ Msg.updateChatLog t) →
      (l.map Msg.updateChatLog).count m = 0 := by
    intro l m hm
    rw [List.count_eq_zero]
    intro hmem
    rcases List.mem_map.mp hmem with ⟨t, _, ht⟩
    exact hm t ht.symm
  have hcap : ∀ (m : Msg), (∀ t, m ≠ Msg.updateChatLog t) →
      (capturedMsgs captured).count m = 0 := by
    intro m hm
    unfold capturedMsgs
    by_cases h : captured = ""
    · simp [h]
    · simp only [if_neg h]
      rw [List.count_eq_zero]
      intro hmem
      rw [List.mem_singleton] at hmem
      exact hm captured hmem
  refine ⟨?_, ?_, ?_, ?_⟩
  · intro d hld hd
    subst hld
    rw [blockingChatRunner_false]
    simp only [List.count_append]
    rw [hmap chunks _ (fun t => Msg.noConfusion),
      hcap _ (fun t => Msg.noConfusion)]
    unfold diffMsgs
    simp [hd]
  · intro d desc hmem
    rw [blockingChatRunner_false] at hmem
    rcases List.mem_append.mp hmem with h | h
    · rcases List.mem_append.mp h with h' | h'
      · rcases List.mem_map.mp h' with ⟨t, _, ht⟩
        exact Msg.noConfusion ht
      · rcases List.mem_append.mp h' with hc | hd2
        · unfold capturedMsgs at hc
          by_cases h0 : captured = "" <;> simp [h0] at hc
        · unfold diffMsgs at hd2
          cases lastDiff with
          | none => simp at hd2
          | some d0 =>
              by_cases h0 : d0 = ""
              · simp [h0] at hd2
              · simp only [if_neg h0, List.mem_singleton,
                  Msg.showDiff.injEq] at hd2
                exact ⟨by rw [hd2.1], hd2.2, by rw [hd2.1]; exact h0⟩
    · simp at h
  · rw [blockingChatRunner_false]
    simp only [List.count_append]
    rw [hmap chunks _ (fun t => Msg.noConfusion),
      hcap _ (fun t => Msg.noConfusion)]
    have hd0 : (diffMsgs lastDiff lastMessage).count Msg.chatTaskDone = 0 := by
      unfold diffMsgs
      cases lastDiff with
      | none => simp
      | some d => by_cases h : d = "" <;> simp [h, List.count_eq_zero]
    rw [hd0]
    decide
  · rw [blockingChatRunner_false]
    exact List.getLast?_concat _

/-- C5 witness: a turn recording diff "d" with description "m" posts exactly
one `ShowDiff "d" "m"`, and the task-done message is last. -/
theorem diff_ready_exactly_when_diff_witness :
    (blockingChatRunner ["a"] false "" (some "d") "m").count
        (Msg.showDiff "d" "m") = 1
    ∧ (blockingChatRunner ["a"] false "" (some "d") "m").getLast?
        = some Msg.chatTaskDone :=
  ⟨(diff_ready_exactly_when_diff ["a"] "" "m" (some "d")).1 "d" rfl (by decide),
   (diff_ready_exactly_when_diff ["a"] "" "m" (some "d")).2.2.2⟩

/-- Modelled from the spec: the working-set collaborator (`listTracked()`,
`add(path)`, `remove(path)`, behind `coder.get_inchat_relative_files`,
`coder.add_rel_fname` and `coder.drop_rel_fname`, which are not under src) —
the tracked-file set is a set of paths where `add` inserts and `remove`
erases; the membership test and branch are tui.py:377-382
(`_blocking_handle_file_selected`). -/
def toggleTracked (tracked : Finset String) (relPath : String) :
    Finset String :=
  if relPath ∈ tracked then tracked.erase relPath else insert relPath tracked

/-- C8: a single toggle adds the path if absent and removes it if present,
and toggling the same path twice in succession returns the tracked-file set
to its original membership. -/
theorem toggle_tracked_involutive (tracked : Finset String) (relPath : String) :
    toggleTracked (toggleTracked tracked relPath) relPath = tracked
    ∧ (relPath ∈ toggleTracked tracked relPath ↔ relPath ∉ tracked) := by
  by_cases h : relPath ∈ tracked
  · constructor
    · simp [toggleTracked, h, Finset.not_mem_erase, Finset.insert_erase h]
    · simp [toggleTracked, h, Finset.not_mem_erase]
  · constructor
    · simp [toggleTracked, h, Finset.mem_insert_self, Finset.erase_insert h]
    · simp [toggleTracked, h]

/-- C8 witness: toggling "a.py" twice on the empty tracked set. -/
theorem toggle_tracked_involutive_witness :
    toggleTracked (toggleTracked (∅ : Finset String) "a.py") "a.py" = ∅ :=
  (toggle_tracked_involutive ∅ "a.py").1

/-- Attribute state of the `Renderer` singleton instance (render.py):
whether `__init__` has run, the `use_jinja2` flag, and the Jinja
`Environment` (modelled by the template directory it was built over; `none`
when rendering is disabled). -/
structure RendererState where
  initialized : Bool
  use_jinja2 : Bool
  env : Option String
deriving DecidableEq, Repr

/-- render.py:7-10 — `Renderer.__new__`: when the class-level `_instance` is
already set (`instanceVar`), it is returned unchanged (the identical object);
otherwise a fresh instance with no attributes yet is allocated. -/
def rendererNew (instanceVar : Option RendererState) : RendererState :=
  match instanceVar with
  | some s => s
  | none => { initialized := false, use_jinja2 := false, env := none }

/-- render.py:12-28 — `Renderer.__init__`: returns immediately (state
unchanged) when the instance is initialized with the same `use_jinja2` flag;
otherwise marks it initialized, stores the flag, and builds the Jinja
environment over the template directory exactly when the flag is true. -/
def rendererInit (s : RendererState) (template_dir : String)
    (use_jinja2 : Bool) : RendererState :=
  if s.initialized = true ∧ s.use_jinja2 = use_jinja2 then s
  else if use_jinja2 = true then
    { initialized := true, use_jinja2 := true, env := some template_dir }
  else { initialized := true, use_jinja2 := false, env := none }

/-- A call `Renderer(template_dir, use_jinja2)`: `__new__` then `__init__`
on the returned instance. -/
def rendererConstruct (instanceVar : Option RendererState)
    (template_dir : String) (use_jinja2 : Bool) : RendererState :=
  rendererInit (rendererNew instanceVar) template_dir use_jinja2

/-- Outcome of `Renderer.render`: the RuntimeError raised when rendering is
disabled, the ValueError raised when the template is missing, or the
rendered template. -/
inductive RenderResult where
  | runtimeError
  | valueError (templateName : String)
  | rendered (templateName : String)
deriving DecidableEq, Repr

/-- render.py:34-43 — `Renderer.render`: raises RuntimeError when
`use_jinja2` is false; raises ValueError when the template cannot be loaded
(`templateExists` false); otherwise renders the template. -/
def render (s : RendererState) (templateName : String)
    (templateExists : Bool) : RenderResult :=
  if s.use_jinja2 = false then RenderResult.runtimeError
  else if templateExists = false then RenderResult.valueError templateName
  else RenderResult.rendered templateName

/-- C10: `Renderer` is a singleton — once `_instance` is set, construction
returns the identical instance; re-running `__init__` with the same
`use_jinja2` flag as the existing initialized instance leaves its state
unchanged; and `render` while `use_jinja2` is false always raises
RuntimeError and never renders. -/
theorem renderer_singleton (s : RendererState)
    (template_dir templateName : String) (use_jinja2 : Bool)
    (templateExists : Bool) :
    rendererNew (some s) = s
    ∧ (s.initialized = true → s.use_jinja2 = use_jinja2 →
        rendererConstruct (some s) template_dir use_jinja2 = s)
    ∧ (s.use_jinja2 = false →
        render s templateName templateExists = RenderResult.runtimeError
        ∧ ∀ out, render s templateName templateExists
            ≠ RenderResult.rendered out) := by
  refine ⟨rfl, ?_, ?_⟩
  · intro h₁ h₂
    simp [rendererConstruct, rendererNew, rendererInit, h₁, h₂]
  · intro h
    refine ⟨by simp [render, h], ?_⟩
    intro out
    simp [render, h]

/-- C10 witness: the module-level instance (initialized with
`use_jinja2=False`) is returned unchanged by a repeated construction, and
rendering on it raises RuntimeError. -/
theorem renderer_singleton_witness :
    rendererConstruct (some ⟨true, false, none⟩) "prompts" false
        = (⟨true, false, none⟩ : RendererState)
    ∧ render ⟨true, false, none⟩ "main.j2" true = RenderResult.runtimeError :=
  ⟨(renderer_singleton ⟨true, false, none⟩ "prompts" "main.j2" false true).2.1
      rfl rfl,
   ((renderer_singleton ⟨true, false, none⟩ "prompts" "main.j2" false
      true).2.2 rfl).1⟩

end Aider
